import Mathlib

/-!
# Verification of the ryohi_sub_cal2 router core

Shallow embedding of the router module of `yhonda-ohishi/ryohi_sub_cal2`
(route matching, route validation, circuit breaker, token-bucket rate
limiter, load balancers, health checker, router reload) together with
proofs about the embedded operations.

Modelling conventions:
* Go `time.Time` / `time.Duration` values are modelled as exact rationals
  (`ℚ`, seconds) where the source mixes instants with float conversions
  (token bucket, circuit breaker), and as `Int` nanoseconds where the
  source only compares whole `time.Duration` values (route validation).
* Go `float64` arithmetic (failure ratio, bucket tokens) is modelled as
  exact rational arithmetic.
* Go `uint32` counters are modelled as `Nat` with an explicit `% 2^32`
  on every increment.
* Fallible Go functions returning `error` are modelled with
  `Except String` / `Option String`; the error strings follow the source.
-/

namespace RyohiRouter

/-- 2^32, the modulus of Go's `uint32` counters. -/
def U32 : Nat := 4294967296

/-! ## Rate-limit, auth and route configuration (models/route.go, models/ratelimit.go, models/metrics.go) -/

/-- `RateLimitConfig` (models/ratelimit.go). -/
structure RateLimitConfig where
  enabled : Bool
  rate : Int
  period : String
  burstSize : Int
  keyType : String
  whiteList : List String
deriving Repr, DecidableEq

/-- `RateLimitConfig.Validate` (models/ratelimit.go).  The Go method mutates
its receiver (default burst size and key type) and returns an `error`; the
model returns the mutated record in `Except`. -/
def RateLimitConfig.Validate (r : RateLimitConfig) : Except String RateLimitConfig :=
  if r.enabled = false then .ok r
  else if r.rate ≤ 0 then .error "rate must be greater than 0"
  else if ¬(r.period = "second" ∨ r.period = "minute" ∨ r.period = "hour") then
    .error ("invalid period: " ++ r.period ++ " (must be second, minute, or hour)")
  else if r.burstSize < 0 then .error "burst size cannot be negative"
  else
    let r := if r.burstSize = 0 then { r with burstSize := r.rate } else r
    if r.keyType = "IP" ∨ r.keyType = "API_KEY" ∨ r.keyType = "USER_ID" ∨ r.keyType = "GLOBAL" then
      .ok r
    else if r.keyType = "" then .ok { r with keyType := "IP" }
    else .error ("invalid key type: " ++ r.keyType)

/-- `AuthConfig` (models/metrics.go). -/
structure AuthConfig where
  enabled : Bool
  type : String
  required : Bool
  roles : List String
deriving Repr, DecidableEq

/-- `AuthConfig.Validate` (models/metrics.go).  Does not mutate its receiver. -/
def AuthConfig.Validate (a : AuthConfig) : Except String AuthConfig :=
  if a.enabled = false then .ok a
  else if ¬(a.type = "none" ∨ a.type = "basic" ∨ a.type = "bearer" ∨
            a.type = "api-key" ∨ a.type = "jwt" ∨ a.type = "oauth2") then
    .error ("invalid auth type: " ++ a.type)
  else if a.type = "none" ∧ a.required = true then
    .error "auth type 'none' cannot be required"
  else .ok a

/-- `RouteConfig` (models/route.go).  `timeout` is `time.Duration` in
nanoseconds.  The `middleware` list and the timestamps do not affect any
modelled operation and are omitted. -/
structure RouteConfig where
  id : String
  path : String
  method : List String
  backend : String
  timeout : Int
  rateLimit : Option RateLimitConfig
  auth : Option AuthConfig
  priority : Int
  enabled : Bool
deriving Repr, DecidableEq

/-- Anchored glob matching of a pattern over a path, where `*` matches any
(possibly empty) sequence of characters.  This is the language of the regex
built by `matchPath` in models/route.go: `regexp.QuoteMeta(pattern)` makes
every non-`*` character literal, the pattern is anchored with `^`/`$`, and
each quoted `\*` is replaced by `.*`; a `.*` consumes an arbitrary prefix,
modelled by trying every suffix of the remaining path.  (`.` in RE2 does
not match a newline; request paths contain none, and the model lets `*`
match every character.) -/
def globMatch : List Char → List Char → Bool
  | [], s => s.isEmpty
  | '*' :: ps, s => s.tails.any fun suffix => globMatch ps suffix
  | p :: ps, s =>
    match s with
    | [] => false
    | c :: s' => p == c && globMatch ps s'

/-- `matchPath` (models/route.go). -/
def matchPath (pattern path : String) : Bool :=
  globMatch pattern.toList path.toList

/-- `RouteConfig.Match` (models/route.go): enabled, method admitted
(literally or by the `"*"` wildcard), and path pattern matched. -/
def RouteConfig.Match (r : RouteConfig) (path method : String) : Bool :=
  r.enabled && r.method.any (fun m => m == method || m == "*") && matchPath r.path path

/-- `isValidPath` (models/route.go): non-empty and starting with `/`. -/
def isValidPath (path : String) : Bool :=
  match path.toList with
  | [] => false
  | c :: _ => c == '/'

/-- `isValidHTTPMethod` (models/route.go). -/
def isValidHTTPMethod (method : String) : Bool :=
  ["GET", "POST", "PUT", "DELETE", "PATCH", "HEAD", "OPTIONS", "CONNECT", "TRACE", "*"].contains
    method

/-- Nanoseconds in a second (`time.Second`). -/
def nsPerSec : Int := 1000000000

/-- `RouteConfig.Validate` (models/route.go).  The Go method mutates its
receiver (default timeout, rate-limit and key-type defaults through the
nested `Validate` calls) and returns an `error`; the model returns the
mutated route.  The per-method loop is modelled by `List.all` (the model
does not reproduce which offending method is named in the error string). -/
def RouteConfig.Validate (r : RouteConfig) : Except String RouteConfig :=
  if r.id = "" then .error "route ID is required"
  else if r.path = "" then .error "route path is required"
  else if isValidPath r.path = false then .error ("invalid route path: " ++ r.path)
  else if r.method = [] then .error "at least one HTTP method is required"
  else if r.method.all isValidHTTPMethod = false then .error "invalid HTTP method"
  else if r.backend = "" then .error "backend service ID is required"
  else
    match (if r.timeout = 0 then .ok (30 * nsPerSec)
           else if r.timeout > 5 * 60 * nsPerSec then .error "timeout cannot exceed 5 minutes"
           else .ok r.timeout : Except String Int) with
    | .error e => .error e
    | .ok t =>
      if r.priority < 0 ∨ r.priority > 1000 then .error "priority must be between 0 and 1000"
      else
        match (match r.rateLimit with
               | none => .ok none
               | some rl =>
                 match rl.Validate with
                 | .error e => .error ("invalid rate limit config: " ++ e)
                 | .ok rl2 => .ok (some rl2) : Except String (Option RateLimitConfig)) with
        | .error e => .error e
        | .ok rl =>
          match (match r.auth with
                 | none => .ok none
                 | some a =>
                   match a.Validate with
                   | .error e => .error ("invalid auth config: " ++ e)
                   | .ok a2 => .ok (some a2) : Except String (Option AuthConfig)) with
          | .error e => .error e
          | .ok au => .ok { r with timeout := t, rateLimit := rl, auth := au }

/-- `RouteCollection` (models/route.go). -/
structure RouteCollection where
  routes : List RouteConfig
deriving Repr, DecidableEq

/-- The loop body of `RouteCollection.FindRoute` (models/route.go):
scan the remaining routes carrying the best match so far and its priority
(initially `nil` and `-1`). -/
def findRouteAux (path method : String) :
    List RouteConfig → Option RouteConfig → Int → Option RouteConfig
  | [], best, _ => best
  | route :: rest, best, bestPriority =>
    if route.Match path method = true ∧ bestPriority < route.priority then
      findRouteAux path method rest (some route) route.priority
    else
      findRouteAux path method rest best bestPriority

/-- `RouteCollection.FindRoute` (models/route.go). -/
def RouteCollection.FindRoute (rc : RouteCollection) (path method : String) :
    Option RouteConfig :=
  findRouteAux path method rc.routes none (-1)

/-! ## Circuit breaker (models/circuit_breaker.go) -/

/-- `CircuitBreakerConfig` (models/circuit_breaker.go).  `maxRequests` and
`minimumRequests` are `uint32` (`Nat`); `interval` and `timeout` are
durations in seconds (`ℚ`); `failureRatio` is `float64`, modelled as an
exact rational. -/
structure CircuitBreakerConfig where
  enabled : Bool
  maxRequests : Nat
  interval : ℚ
  timeout : ℚ
  failureRatio : ℚ
  minimumRequests : Nat
deriving Repr, DecidableEq

/-- The `CircuitBreakerState` constants `StateClosed`, `StateOpen`,
`StateHalfOpen` (models/circuit_breaker.go). -/
inductive CircuitBreakerState where
  | stateClosed
  | stateOpen
  | stateHalfOpen
deriving Repr, DecidableEq

/-- `CircuitBreaker` (models/circuit_breaker.go).  `uint32` counters are
`Nat` reduced `% 2^32` on every increment; instants are `ℚ` seconds
(`time.Time` zero value is `0`). -/
structure CircuitBreaker where
  config : CircuitBreakerConfig
  state : CircuitBreakerState
  consecutiveSuccesses : Nat
  consecutiveFailures : Nat
  requests : Nat
  failures : Nat
  lastFailureTime : ℚ
  nextAttemptTime : ℚ
  intervalStart : ℚ
deriving Repr, DecidableEq

/-- `NewCircuitBreaker` (models/circuit_breaker.go); `now` is `time.Now()`. -/
def NewCircuitBreaker (config : CircuitBreakerConfig) (now : ℚ) : CircuitBreaker :=
  { config := config, state := .stateClosed,
    consecutiveSuccesses := 0, consecutiveFailures := 0,
    requests := 0, failures := 0,
    lastFailureTime := 0, nextAttemptTime := 0, intervalStart := now }

/-- `CircuitBreaker.openCircuit` (models/circuit_breaker.go).  The Go method
reads `time.Now()` itself; under the per-breaker lock this is the same
instant as the surrounding call's `now`, which the model passes in. -/
def CircuitBreaker.openCircuit (cb : CircuitBreaker) (now : ℚ) : CircuitBreaker :=
  { cb with state := .stateOpen,
            nextAttemptTime := now + cb.config.timeout,
            consecutiveSuccesses := 0 }

/-- `CircuitBreaker.closeCircuit` (models/circuit_breaker.go).  Note that it
does not reset `consecutiveSuccesses`. -/
def CircuitBreaker.closeCircuit (cb : CircuitBreaker) (now : ℚ) : CircuitBreaker :=
  { cb with state := .stateClosed,
            consecutiveFailures := 0,
            requests := 0,
            failures := 0,
            intervalStart := now }

/-- `CircuitBreaker.CanExecute` (models/circuit_breaker.go): returns the
(possibly updated) breaker and the admission verdict.  In Go the `Open`
branch upgrades its read lock to a write lock to flip to half-open; the
sequential model folds that into one step.  `now.After(t)` is the strict
comparison `t < now`. -/
def CircuitBreaker.CanExecute (cb : CircuitBreaker) (now : ℚ) : CircuitBreaker × Bool :=
  match cb.state with
  | .stateClosed => (cb, true)
  | .stateOpen =>
    if cb.nextAttemptTime < now then
      ({ cb with state := .stateHalfOpen, consecutiveSuccesses := 0 }, true)
    else (cb, false)
  | .stateHalfOpen => (cb, decide (cb.consecutiveSuccesses < cb.config.maxRequests))

/-- `CircuitBreaker.RecordResult` (models/circuit_breaker.go). -/
def CircuitBreaker.RecordResult (cb : CircuitBreaker) (now : ℚ) (success : Bool) :
    CircuitBreaker :=
  let cb := if cb.config.interval < now - cb.intervalStart then
      { cb with requests := 0, failures := 0, intervalStart := now } else cb
  let cb := { cb with requests := (cb.requests + 1) % U32 }
  let cb := if success then cb
    else { cb with failures := (cb.failures + 1) % U32, lastFailureTime := now }
  match cb.state with
  | .stateClosed =>
    if success then
      { cb with consecutiveSuccesses := (cb.consecutiveSuccesses + 1) % U32,
                consecutiveFailures := 0 }
    else
      let cb := { cb with consecutiveFailures := (cb.consecutiveFailures + 1) % U32,
                          consecutiveSuccesses := 0 }
      if cb.config.minimumRequests ≤ cb.requests ∧
         cb.config.failureRatio ≤ (cb.failures : ℚ) / (cb.requests : ℚ) then
        cb.openCircuit now
      else cb
  | .stateHalfOpen =>
    if success then
      let cb := { cb with consecutiveSuccesses := (cb.consecutiveSuccesses + 1) % U32 }
      if cb.config.maxRequests ≤ cb.consecutiveSuccesses then cb.closeCircuit now else cb
    else cb.openCircuit now
  | .stateOpen => cb

/-- Whether the rolling window has expired at `now`
(`now.Sub(cb.intervalStart) > cb.config.Interval`). -/
def windowExpired (cb : CircuitBreaker) (now : ℚ) : Prop :=
  cb.config.interval < now - cb.intervalStart

instance (cb : CircuitBreaker) (now : ℚ) : Decidable (windowExpired cb now) := by
  unfold windowExpired; infer_instance

/-- The request counter carried into an outcome recorded at `now`
(zero if the window expired). -/
def windowRequests (cb : CircuitBreaker) (now : ℚ) : Nat :=
  if windowExpired cb now then 0 else cb.requests

/-- The failure counter carried into an outcome recorded at `now`. -/
def windowFailures (cb : CircuitBreaker) (now : ℚ) : Nat :=
  if windowExpired cb now then 0 else cb.failures

/-- The trip condition of the Closed state, on post-increment counters:
a failure with `requests ≥ minimum_requests` and
`failures/requests ≥ failure_ratio`. -/
def tripCondition (cb : CircuitBreaker) (now : ℚ) (success : Bool) : Prop :=
  success = false ∧
  cb.config.minimumRequests ≤ windowRequests cb now + 1 ∧
  cb.config.failureRatio ≤
    ((windowFailures cb now + 1 : Nat) : ℚ) / ((windowRequests cb now + 1 : Nat) : ℚ)

/-- Default breaker configuration (spec §6 defaults; `failure_ratio 0.6`). -/
def cfgEx : CircuitBreakerConfig :=
  { enabled := true, maxRequests := 3, interval := 60, timeout := 30,
    failureRatio := 3/5, minimumRequests := 3 }

/-- A Closed breaker two requests (one failure) into its window. -/
def cbClosedEx : CircuitBreaker :=
  { config := cfgEx, state := .stateClosed,
    consecutiveSuccesses := 0, consecutiveFailures := 1,
    requests := 2, failures := 1,
    lastFailureTime := 0, nextAttemptTime := 0, intervalStart := 0 }

/-- An Open breaker whose dwell ends at instant `5`. -/
def cbOpenEx : CircuitBreaker :=
  { config := cfgEx, state := .stateOpen,
    consecutiveSuccesses := 0, consecutiveFailures := 2,
    requests := 3, failures := 2,
    lastFailureTime := 4, nextAttemptTime := 5, intervalStart := 0 }

/-- A Half-Open breaker with `max_requests = 1` and no recorded successes. -/
def cbHalfEx : CircuitBreaker :=
  { config := { cfgEx with maxRequests := 1 }, state := .stateHalfOpen,
    consecutiveSuccesses := 0, consecutiveFailures := 0,
    requests := 0, failures := 0,
    lastFailureTime := 0, nextAttemptTime := 0, intervalStart := 0 }

/-! ## Token bucket (models/ratelimit.go) -/

/-- `TokenBucket` (models/ratelimit.go): the `float64` fields `tokens`,
`capacity`, `rate` are modelled as exact rationals; `lastFill` is an
instant in seconds. -/
structure TokenBucket where
  tokens : ℚ
  capacity : ℚ
  rate : ℚ
  lastFill : ℚ
deriving Repr, DecidableEq

/-- `TokenBucket.fill` (models/ratelimit.go):
`elapsed := now.Sub(lastFill).Seconds()`;
`tokens = min(tokens + elapsed*rate, capacity)`; `lastFill = now`. -/
def TokenBucket.fill (tb : TokenBucket) (now : ℚ) : TokenBucket :=
  { tb with tokens := min (tb.tokens + (now - tb.lastFill) * tb.rate) tb.capacity,
            lastFill := now }

/-- `TokenBucket.Allow` (models/ratelimit.go): refill, then admit iff
`tokens ≥ n`, subtracting `n` on admission. -/
def TokenBucket.Allow (tb : TokenBucket) (n : ℚ) (now : ℚ) : TokenBucket × Bool :=
  let tb := tb.fill now
  if n ≤ tb.tokens then ({ tb with tokens := tb.tokens - n }, true) else (tb, false)

/-- A sequence of single-token `Allow` calls at the given instants:
final bucket and number of admitted requests. -/
def runAllows (tb : TokenBucket) : List ℚ → TokenBucket × Nat
  | [] => (tb, 0)
  | t :: ts =>
    let step := tb.Allow 1 t
    let rest := runAllows step.1 ts
    (rest.1, (if step.2 then 1 else 0) + rest.2)

/-- A bucket as created by `getBucket` (models/ratelimit.go): full at
creation, `tokens = capacity = burst size`; here capacity 2, rate 1/s. -/
def tbEx : TokenBucket := { tokens := 2, capacity := 2, rate := 1, lastFill := 0 }

/-! ## Load balancers (services/loadbalancer/loadbalancer.go) -/

/-- `EndpointConfig` (models/backend.go).  `Weight` is a Go `int`,
validated into `[1,100]`; the metadata map does not affect any modelled
operation and is omitted.  `Nat` covers the validated domain (a negative
weight behaves in Go exactly like 0: the weight loop does not run). -/
structure EndpointConfig where
  url : String
  weight : Nat
  healthy : Bool
deriving Repr, DecidableEq

/-- `LoadBalancerConfig` (models/backend.go). -/
structure LoadBalancerConfig where
  algorithm : String
  stickySession : Bool
deriving Repr, DecidableEq

/-- The shared body of every `MarkHealthy`/`MarkUnhealthy` loop: set the
healthy flag of the first endpoint whose URL matches, leave the rest. -/
def setHealthyFirst : List EndpointConfig → String → Bool → List EndpointConfig
  | [], _, _ => []
  | ep :: rest, url, h =>
    if ep.url = url then { ep with healthy := h } :: rest
    else ep :: setHealthyFirst rest url h

/-- `RoundRobin` (services/loadbalancer/loadbalancer.go); `current` is a
`uint32` counter. -/
structure RoundRobin where
  endpoints : List EndpointConfig
  current : Nat
deriving Repr, DecidableEq

/-- `NewRoundRobin`. -/
def NewRoundRobin (endpoints : List EndpointConfig) : RoundRobin :=
  { endpoints := endpoints, current := 0 }

/-- `RoundRobin.Next`: the healthy subset is computed at call time;
`index := atomic.AddUint32(&current, 1) % uint32(len(healthy))`.  The cast
`uint32(len)` equals `len` for every list shorter than 2^32; the in-range
index access is modelled with `get?` (always `some` on the taken branch). -/
def RoundRobin.Next (rr : RoundRobin) : RoundRobin × Option EndpointConfig :=
  if rr.endpoints.isEmpty then (rr, none)
  else
    let healthyEndpoints := rr.endpoints.filter (fun ep => ep.healthy)
    if healthyEndpoints.isEmpty then (rr, none)
    else
      let current := (rr.current + 1) % U32
      ({ rr with current := current },
        healthyEndpoints.get? (current % healthyEndpoints.length))

/-- `RoundRobin.MarkHealthy` (keyed by the endpoint's URL, as the Go loop
compares `URL` fields). -/
def RoundRobin.MarkHealthy (rr : RoundRobin) (url : String) : RoundRobin :=
  { rr with endpoints := setHealthyFirst rr.endpoints url true }

/-- `RoundRobin.MarkUnhealthy`. -/
def RoundRobin.MarkUnhealthy (rr : RoundRobin) (url : String) : RoundRobin :=
  { rr with endpoints := setHealthyFirst rr.endpoints url false }

/-- `Weighted` (services/loadbalancer/loadbalancer.go). -/
structure Weighted where
  endpoints : List EndpointConfig
  weightedList : List Nat
  current : Nat
deriving Repr, DecidableEq

/-- The loop of `Weighted.buildWeightedList`: starting at index `i`, each
healthy endpoint contributes its index `weight` times. -/
def buildWeightedListFrom : Nat → List EndpointConfig → List Nat
  | _, [] => []
  | i, ep :: rest =>
    (if ep.healthy then List.replicate ep.weight i else []) ++
      buildWeightedListFrom (i + 1) rest

/-- `Weighted.buildWeightedList`. -/
def Weighted.buildWeightedList (w : Weighted) : Weighted :=
  { w with weightedList := buildWeightedListFrom 0 w.endpoints }

/-- `NewWeighted`. -/
def NewWeighted (endpoints : List EndpointConfig) : Weighted :=
  Weighted.buildWeightedList { endpoints := endpoints, weightedList := [], current := 0 }

/-- `Weighted.Next`.  Go indexes `w.endpoints[endpointIndex]` directly (a
panic when out of range); under the construction invariant the index is
always in range, and the model returns `none` on the unreachable branch. -/
def Weighted.Next (w : Weighted) : Weighted × Option EndpointConfig :=
  if w.weightedList.isEmpty then (w, none)
  else
    let current := (w.current + 1) % U32
    let w' := { w with current := current }
    match w.weightedList.get? (current % w.weightedList.length) with
    | none => (w', none)
    | some endpointIndex => (w', w.endpoints.get? endpointIndex)

/-- `Weighted.MarkHealthy`: the list is rebuilt only when a URL matched
(the rebuild sits inside the loop's match branch). -/
def Weighted.MarkHealthy (w : Weighted) (url : String) : Weighted :=
  if w.endpoints.any (fun ep => ep.url = url) then
    Weighted.buildWeightedList { w with endpoints := setHealthyFirst w.endpoints url true }
  else w

/-- `Weighted.MarkUnhealthy`. -/
def Weighted.MarkUnhealthy (w : Weighted) (url : String) : Weighted :=
  if w.endpoints.any (fun ep => ep.url = url) then
    Weighted.buildWeightedList { w with endpoints := setHealthyFirst w.endpoints url false }
  else w

/-- `LeastConnections` (services/loadbalancer/loadbalancer.go).  The Go
`map[string]int32` is modelled as a total function: `NewLeastConnections`
fills every endpoint URL with 0, and reads of missing Go map keys also
yield 0, so the constant-0 start agrees; `int32` wrap-around of a count is
not modelled (counts stay far below 2^31). -/
structure LeastConnections where
  endpoints : List EndpointConfig
  connections : String → Int

/-- `math.MaxInt32`, the Go initialiser `int32(^uint32(0) >> 1)`. -/
def maxInt32 : Int := 2147483647

/-- `NewLeastConnections`. -/
def NewLeastConnections (endpoints : List EndpointConfig) : LeastConnections :=
  { endpoints := endpoints, connections := fun _ => 0 }

/-- The selection loop of `LeastConnections.Next`: skip unhealthy
endpoints, keep the first endpoint with a strictly smaller count. -/
def lcScan : List EndpointConfig → (String → Int) → Option EndpointConfig → Int →
    Option EndpointConfig
  | [], _, selected, _ => selected
  | ep :: rest, conns, selected, minConnections =>
    if ep.healthy = false then lcScan rest conns selected minConnections
    else if conns ep.url < minConnections then lcScan rest conns (some ep) (conns ep.url)
    else lcScan rest conns selected minConnections

/-- `LeastConnections.Next`: scan, then increment the chosen endpoint's
count. -/
def LeastConnections.Next (lc : LeastConnections) : LeastConnections × Option EndpointConfig :=
  match lcScan lc.endpoints lc.connections none maxInt32 with
  | none => (lc, none)
  | some selected =>
    ({ lc with connections := fun u =>
        if u = selected.url then lc.connections u + 1 else lc.connections u },
      some selected)

/-- `LeastConnections.MarkHealthy` (does not touch the counts). -/
def LeastConnections.MarkHealthy (lc : LeastConnections) (url : String) : LeastConnections :=
  { lc with endpoints := setHealthyFirst lc.endpoints url true }

/-- `LeastConnections.MarkUnhealthy`. -/
def LeastConnections.MarkUnhealthy (lc : LeastConnections) (url : String) : LeastConnections :=
  { lc with endpoints := setHealthyFirst lc.endpoints url false }

/-- `Random` (services/loadbalancer/loadbalancer.go).  The package-global
`randomSeed` counter is passed and returned explicitly. -/
structure Random where
  endpoints : List EndpointConfig
deriving Repr, DecidableEq

/-- `NewRandom`. -/
def NewRandom (endpoints : List EndpointConfig) : Random :=
  { endpoints := endpoints }

/-- `Random.Next`: `int(atomic.AddUint32(&randomSeed, 1)) % len(healthy)`
(the `int` cast of a `uint32` is its value on 64-bit targets). -/
def Random.Next (r : Random) (randomSeed : Nat) : Nat × Option EndpointConfig :=
  let healthyEndpoints := r.endpoints.filter (fun ep => ep.healthy)
  if healthyEndpoints.isEmpty then (randomSeed, none)
  else
    let seed := (randomSeed + 1) % U32
    (seed, healthyEndpoints.get? (seed % healthyEndpoints.length))

/-- The `LoadBalancer` interface value: one of the four pool states. -/
inductive LoadBalancer where
  | roundRobin : RoundRobin → LoadBalancer
  | weighted : Weighted → LoadBalancer
  | leastConn : LeastConnections → LoadBalancer
  | random : Random → LoadBalancer

/-- `loadbalancer.New` (services/loadbalancer/loadbalancer.go): algorithm
dispatch; anything outside the four named algorithms (and the empty-string
default) is rejected — including `"ip-hash"`, which `LoadBalancerConfig.
Validate` accepts. -/
def LoadBalancer.New (config : LoadBalancerConfig) (endpoints : List EndpointConfig) :
    Except String LoadBalancer :=
  if config.algorithm = "round-robin" ∨ config.algorithm = "" then
    .ok (.roundRobin (NewRoundRobin endpoints))
  else if config.algorithm = "weighted" then .ok (.weighted (NewWeighted endpoints))
  else if config.algorithm = "least-conn" then .ok (.leastConn (NewLeastConnections endpoints))
  else if config.algorithm = "random" then .ok (.random (NewRandom endpoints))
  else .error ("unsupported algorithm: " ++ config.algorithm)

/-- Construction invariant of `Weighted`: the index list is the one built
from the current endpoints.  Established by `NewWeighted` and preserved by
both `Mark` operations. -/
def Weighted.WF (w : Weighted) : Prop :=
  w.weightedList = buildWeightedListFrom 0 w.endpoints

/-- Operations available on a least-connections pool through the
`LoadBalancer` interface (there is no decrement). -/
inductive LCOp where
  | next : LCOp
  | markHealthy (url : String) : LCOp
  | markUnhealthy (url : String) : LCOp

/-- Apply one interface operation to a least-connections pool. -/
def LeastConnections.applyOp (lc : LeastConnections) : LCOp → LeastConnections
  | .next => (lc.Next).1
  | .markHealthy url => lc.MarkHealthy url
  | .markUnhealthy url => lc.MarkUnhealthy url

/-- Apply a sequence of interface operations. -/
def LeastConnections.runOps (lc : LeastConnections) : List LCOp → LeastConnections
  | [] => lc
  | op :: ops => (lc.applyOp op).runOps ops

/-- A healthy endpoint used in the pool examples. -/
def epA : EndpointConfig := { url := "http://a:9000", weight := 2, healthy := true }

/-- An unhealthy endpoint used in the pool examples. -/
def epB : EndpointConfig := { url := "http://b:9000", weight := 1, healthy := false }

/-- Round-robin pool over one healthy and one unhealthy endpoint. -/
def rrEx : RoundRobin := NewRoundRobin [epA, epB]

/-- Weighted pool over the same endpoints. -/
def wEx : Weighted := NewWeighted [epA, epB]

/-- Random pool over the same endpoints. -/
def rdEx : Random := NewRandom [epA, epB]

/-- Least-connections pool over a single healthy endpoint. -/
def lcEx : LeastConnections := NewLeastConnections [epA]

/-! ## Concrete route instances (spec §8 scenario 5) used by witnesses -/

/-- Route `lo` of spec scenario 5: `path=/a/*, priority=10`. -/
def rcLo : RouteConfig :=
  { id := "lo", path := "/a/*", method := ["GET"], backend := "api",
    timeout := 30 * nsPerSec, rateLimit := none, auth := none,
    priority := 10, enabled := true }

/-- Route `hi` of spec scenario 5: `path=/a/special, priority=100`. -/
def rcHi : RouteConfig :=
  { id := "hi", path := "/a/special", method := ["GET"], backend := "api",
    timeout := 30 * nsPerSec, rateLimit := none, auth := none,
    priority := 100, enabled := true }

/-- The two-route collection of spec scenario 5. -/
def rcExample : RouteCollection := ⟨[rcLo, rcHi]⟩

/-- A route valid except for a 6-minute timeout. -/
def rBig : RouteConfig :=
  { id := "r1", path := "/api/v1/users", method := ["GET"], backend := "api",
    timeout := 6 * 60 * nsPerSec, rateLimit := none, auth := none,
    priority := 10, enabled := true }

/-- A valid route with zero timeout (to be defaulted to 30s). -/
def rZero : RouteConfig :=
  { id := "r2", path := "/api/v1/users", method := ["GET"], backend := "api",
    timeout := 0, rateLimit := none, auth := none,
    priority := 10, enabled := true }

/-! ## Backend configuration and router core (models/backend.go, services/router/router.go) -/

/-- `HealthCheckConfig` (models/health.go); durations in seconds (`ℚ`). -/
structure HealthCheckConfig where
  enabled : Bool
  path : String
  interval : ℚ
  timeout : ℚ
  healthyThreshold : Int
  unhealthyThreshold : Int
  expectedStatus : List Int
deriving Repr, DecidableEq

/-- `BackendService` (models/backend.go).  The retry policy and the
timestamps do not affect any modelled operation and are omitted. -/
structure BackendService where
  id : String
  name : String
  endpoints : List EndpointConfig
  loadBalancer : LoadBalancerConfig
  healthCheck : HealthCheckConfig
  circuitBreaker : CircuitBreakerConfig
  enabled : Bool
deriving Repr, DecidableEq

/-- `Config` (lib/config): the slice of backends and routes consumed by the
router; transport parameters are not used by the modelled operations. -/
structure Config where
  backends : List BackendService
  routes : List RouteConfig

/-- `router.Backend` (services/router/router.go): a backend with its load
balancer and its per-endpoint reverse proxies (modelled by their URL keys;
`url.Parse` failures, possible only for control-character URLs, are not
modelled). -/
structure RtBackend where
  service : BackendService
  lb : LoadBalancer
  proxies : List String

/-- `router.Router` (services/router/router.go): the current config, the
backends map (an association list in insertion order; config IDs are
unique) and the route table. -/
structure Router where
  config : Config
  backends : List (String × RtBackend)
  routes : List RouteConfig

/-- `Router.initializeBackend` (services/router/router.go). -/
def Router.initializeBackend (r : Router) (service : BackendService) : Except String Router :=
  match LoadBalancer.New service.loadBalancer service.endpoints with
  | .error e => .error ("failed to create load balancer: " ++ e)
  | .ok lb =>
    .ok { r with backends := r.backends ++
          [(service.id,
            { service := service, lb := lb, proxies := service.endpoints.map (·.url) })] }

/-- The backend-initialization loops of `router.New` and `Router.Reload`:
initialize each backend in order, stopping at (and reporting) the first
failure; the receiver keeps the backends initialized so far. -/
def Router.initBackends (r : Router) : List BackendService → Router × Option String
  | [] => (r, none)
  | svc :: rest =>
    match r.initializeBackend svc with
    | .error e => (r, some ("failed to initialize backend " ++ svc.id ++ ": " ++ e))
    | .ok r' => r'.initBackends rest

/-- `router.New` (services/router/router.go). -/
def Router.New (cfg : Config) : Except String Router :=
  match Router.initBackends { config := cfg, backends := [], routes := [] } cfg.backends with
  | (_, some e) => .error e
  | (r, none) => .ok { r with routes := cfg.routes }

/-- `Router.Reload` (services/router/router.go): clear the backends map and
the route table, re-initialize from the new config (returning early on the
first failure, with the receiver left as mutated so far), then install the
routes and the new config. -/
def Router.Reload (r : Router) (cfg : Config) : Router × Option String :=
  let r0 : Router := { r with backends := [], routes := [] }
  match r0.initBackends cfg.backends with
  | (r1, some e) => (r1, some e)
  | (r1, none) => ({ r1 with routes := cfg.routes, config := cfg }, none)

/-- The backends that a fresh initialization of the given list produces up
to the first failure — a function of the new configuration only. -/
def initializedBackends : List BackendService → List (String × RtBackend)
  | [] => []
  | svc :: rest =>
    match LoadBalancer.New svc.loadBalancer svc.endpoints with
    | .error _ => []
    | .ok lb =>
      (svc.id, { service := svc, lb := lb, proxies := svc.endpoints.map (·.url) }) ::
        initializedBackends rest

/-! ## Health checker (services/health/checker.go, models/health.go) -/

/-- `EndpointHealth` (models/health.go); the status-code and
consecutive-counter fields are never written by the modelled checker and
are omitted.  A `nil` Go error is the empty string. -/
structure EndpointHealth where
  url : String
  healthy : Bool
  lastCheck : ℚ
  responseTime : ℚ
  error : String
deriving Repr, DecidableEq

/-- `HealthStatus` (models/health.go). -/
structure HealthStatus where
  serviceID : String
  status : String
  lastCheck : ℚ
  consecutiveOK : Int
  consecutiveFail : Int
  responseTime : ℚ
  message : String
  endpointStatuses : List (String × EndpointHealth)
deriving Repr, DecidableEq

/-- `HealthStatus.Update` (models/health.go); `now` is `time.Now()`. -/
def HealthStatus.Update (h : HealthStatus) (success : Bool) (responseTime : ℚ)
    (message : String) (now : ℚ) : HealthStatus :=
  let h := { h with lastCheck := now, responseTime := responseTime, message := message }
  let h := if success then { h with consecutiveOK := h.consecutiveOK + 1, consecutiveFail := 0 }
           else { h with consecutiveFail := h.consecutiveFail + 1, consecutiveOK := 0 }
  if 0 < h.consecutiveOK then { h with status := "healthy" }
  else if 0 < h.consecutiveFail then { h with status := "unhealthy" }
  else { h with status := "unknown" }

/-- Go map assignment on an association list: replace the first binding of
the key, or append a new one. -/
def updateEndpointAssoc (m : List (String × EndpointHealth)) (url : String)
    (eh : EndpointHealth) : List (String × EndpointHealth) :=
  match m with
  | [] => [(url, eh)]
  | kv :: rest =>
    if kv.1 = url then (url, eh) :: rest else kv :: updateEndpointAssoc rest url eh

/-- `HealthStatus.updateOverallStatus` (models/health.go): healthy iff at
least one endpoint record is healthy. -/
def HealthStatus.updateOverallStatus (h : HealthStatus) : HealthStatus :=
  if h.endpointStatuses.isEmpty then { h with status := "unknown" }
  else if 0 < (h.endpointStatuses.filter fun kv => kv.2.healthy).length then
    { h with status := "healthy" }
  else { h with status := "unhealthy" }

/-- `HealthStatus.UpdateEndpoint` (models/health.go). -/
def HealthStatus.UpdateEndpoint (h : HealthStatus) (url : String) (eh : EndpointHealth) :
    HealthStatus :=
  HealthStatus.updateOverallStatus
    { h with endpointStatuses := updateEndpointAssoc h.endpointStatuses url eh }

/-- Association-list lookup for the checker's `statuses` map. -/
def lookupStatus : List (String × HealthStatus) → String → Option HealthStatus
  | [], _ => none
  | kv :: rest, id => if kv.1 = id then some kv.2 else lookupStatus rest id

/-- Go map assignment for the checker's `statuses` map. -/
def updateStatusAssoc (m : List (String × HealthStatus)) (id : String)
    (st : HealthStatus) : List (String × HealthStatus) :=
  match m with
  | [] => [(id, st)]
  | kv :: rest =>
    if kv.1 = id then (id, st) :: rest else kv :: updateStatusAssoc rest id st

/-- The endpoint loop of `Checker.performHealthCheck`
(services/health/checker.go): probe each endpoint (`probe url` yields
`checkEndpoint`'s `(healthy, responseTime, err)`), record an
`EndpointHealth` for it, and track whether at least one endpoint is
healthy and the last error string. -/
def performHealthCheckLoop (probe : String → Bool × ℚ × Option String) (now : ℚ) :
    List EndpointConfig → HealthStatus → Bool → String → HealthStatus × Bool × String
  | [], status, atLeastOneHealthy, lastError => (status, atLeastOneHealthy, lastError)
  | ep :: rest, status, atLeastOneHealthy, lastError =>
    let res := probe ep.url
    let eh : EndpointHealth :=
      { url := ep.url, healthy := res.1, lastCheck := now, responseTime := res.2.1,
        error := match res.2.2 with | some e => e | none => "" }
    let lastError := match res.2.2 with | some e => e | none => lastError
    let atLeastOneHealthy := atLeastOneHealthy || res.1
    performHealthCheckLoop probe now rest (status.UpdateEndpoint ep.url eh)
      atLeastOneHealthy lastError

/-- `Checker.performHealthCheck` (services/health/checker.go): it reads and
writes only the checker's `statuses` map.  The HTTP probe of
`checkEndpoint` is the oracle `probe`. -/
def performHealthCheck (statuses : List (String × HealthStatus))
    (backend : BackendService) (probe : String → Bool × ℚ × Option String) (now : ℚ) :
    List (String × HealthStatus) :=
  let status := match lookupStatus statuses backend.id with
    | some s => s
    | none =>
      { serviceID := backend.id, status := "unknown", lastCheck := 0,
        consecutiveOK := 0, consecutiveFail := 0, responseTime := 0, message := "",
        endpointStatuses := [] }
  let res := performHealthCheckLoop probe now backend.endpoints status false ""
  let status := if res.2.1 then res.1.Update true 0 "At least one endpoint healthy" now
                else res.1.Update false 0 res.2.2 now
  updateStatusAssoc statuses backend.id status

/-- The gateway state relevant to claim C3: the health checker's status map
together with the router's backends (each holding a load-balancer pool).
`Checker` (services/health/checker.go) holds no reference to any pool. -/
structure GatewayState where
  statuses : List (String × HealthStatus)
  backends : List (String × RtBackend)

/-- One health-check pass of the running gateway: `performHealthCheck` on
the checker's statuses.  The router's backends appear unchanged on the
right because the checker's code contains no call into any pool — there is
no call to `MarkHealthy`/`MarkUnhealthy` anywhere in the repository. -/
def healthCheckStep (s : GatewayState) (backend : BackendService)
    (probe : String → Bool × ℚ × Option String) (now : ℚ) : GatewayState :=
  { s with statuses := performHealthCheck s.statuses backend probe now }

/-! ## Concrete router and checker instances used by C2/C3 -/

/-- A disabled health-check policy (fields at spec defaults). -/
def hcOff : HealthCheckConfig :=
  { enabled := false, path := "/health", interval := 30, timeout := 5,
    healthyThreshold := 2, unhealthyThreshold := 3, expectedStatus := [200] }

/-- An enabled health-check policy. -/
def hcOn : HealthCheckConfig := { hcOff with enabled := true }

/-- A disabled circuit-breaker policy. -/
def cbOff : CircuitBreakerConfig :=
  { enabled := false, maxRequests := 0, interval := 0, timeout := 0,
    failureRatio := 0, minimumRequests := 0 }

/-- The installed backend `api` over the healthy endpoint. -/
def svcOld : BackendService :=
  { id := "api", name := "api", endpoints := [epA],
    loadBalancer := { algorithm := "round-robin", stickySession := false },
    healthCheck := hcOff, circuitBreaker := cbOff, enabled := true }

/-- A new backend whose algorithm `ip-hash` passes
`LoadBalancerConfig.Validate` but is rejected by `loadbalancer.New`. -/
def svcBad : BackendService :=
  { svcOld with
    id := "api2",
    loadBalancer := { algorithm := "ip-hash", stickySession := false } }

/-- The installed configuration. -/
def cfgOld : Config := { backends := [svcOld], routes := [rcLo] }

/-- A new configuration whose only backend fails to initialize. -/
def cfgBad : Config := { backends := [svcBad], routes := [rcLo] }

/-- The router with `cfgOld` installed (as built by `router.New`). -/
def routerEx : Router :=
  { config := cfgOld,
    backends := [("api",
      { service := svcOld, lb := .roundRobin (NewRoundRobin [epA]),
        proxies := ["http://a:9000"] })],
    routes := [rcLo] }

/-- An endpoint whose pool flag is (still) false — the initial state of
every endpoint not marked healthy in the configuration file. -/
def epSick : EndpointConfig := { url := "http://a:9000", weight := 1, healthy := false }

/-- The backend `api` over the unmarked endpoint, health checks enabled. -/
def svcSick : BackendService := { svcOld with endpoints := [epSick], healthCheck := hcOn }

/-- Gateway state: empty checker map, router pool over the unmarked
endpoint. -/
def gwEx : GatewayState :=
  { statuses := [],
    backends := [("api",
      { service := svcSick, lb := .roundRobin (NewRoundRobin [epSick]),
        proxies := ["http://a:9000"] })] }

/-- A probe oracle for which every endpoint check succeeds. -/
def probeOK : String → Bool × ℚ × Option String := fun _ => (true, 0, none)

/-! ## Correctness of FindRoute (claim C1) -/

/-- Loop invariant of `FindRoute`: scanning `l` with current best `best` of
priority `bestP` returns (a) a matching route of maximal priority among the
scanned ones, which is (b) either the carried best or the earliest
strictly-better route in `l`; it returns `none` only when the carried best
was `none` and nothing in `l` beats `bestP`. -/
theorem findRouteAux_spec (path method : String) :
    ∀ (l : List RouteConfig) (best : Option RouteConfig) (bestP : Int),
      (∀ b, best = some b → b.Match path method = true ∧ b.priority = bestP) →
      (∀ r, findRouteAux path method l best bestP = some r →
          r.Match path method = true ∧ bestP ≤ r.priority ∧
          (∀ r' ∈ l, r'.Match path method = true → r'.priority ≤ r.priority) ∧
          (findRouteAux path method l best bestP = best ∨
            (bestP < r.priority ∧ ∃ i, ∃ h : i < l.length,
              l.get ⟨i, h⟩ = r ∧
              ∀ j, ∀ hj : j < l.length, j < i →
                (l.get ⟨j, hj⟩).Match path method = true →
                (l.get ⟨j, hj⟩).priority < r.priority))) ∧
      (findRouteAux path method l best bestP = none →
          best = none ∧ ∀ r' ∈ l, r'.Match path method = true → r'.priority ≤ bestP) := by
  intro l
  induction l with
  | nil =>
    intro best bestP hbest
    constructor
    · intro r hr
      simp only [findRouteAux] at hr
      obtain ⟨hm, hp⟩ := hbest r hr
      exact ⟨hm, le_of_eq hp.symm, by simp, Or.inl rfl⟩
    · intro hr
      simp only [findRouteAux] at hr
      exact ⟨hr, by simp⟩
  | cons route rest ih =>
    intro best bestP hbest
    by_cases hc : route.Match path method = true ∧ bestP < route.priority
    · have heq : findRouteAux path method (route :: rest) best bestP
          = findRouteAux path method rest (some route) route.priority := by
        simp only [findRouteAux, if_pos hc]
      have ih' := ih (some route) route.priority
        (by rintro b hb; cases hb; exact ⟨hc.1, rfl⟩)
      constructor
      · intro r hr
        rw [heq] at hr
        obtain ⟨hM, hge, hmax, hdisj⟩ := ih'.1 r hr
        refine ⟨hM, le_of_lt (lt_of_lt_of_le hc.2 hge), ?_, ?_⟩
        · intro r' hr' hm'
          rcases List.mem_cons.mp hr' with rfl | h
          · exact hge
          · exact hmax r' h hm'
        · right
          rcases hdisj with hres | ⟨hgt, i, hi, hget, hearlier⟩
          · have hrr : route = r := by
              have : some route = some r := by rw [← hres, hr]
              exact Option.some.inj this
          -- the carried best `route` is returned: it sits at index 0
            subst hrr
            refine ⟨hc.2, 0, by simp, by simp, ?_⟩
            intro j hj hj0
            omega
          · refine ⟨lt_trans hc.2 hgt, i + 1, by simpa using hi, by simpa using hget, ?_⟩
            intro j hj hjlt hmj
            cases j with
            | zero =>
              simpa using hgt
            | succ j' =>
              have hj' : j' < rest.length := by simpa using hj
              have := hearlier j' hj' (by omega)
              simp only [List.get_cons_succ] at hmj ⊢
              exact this hmj
      · intro hr
        rw [heq] at hr
        obtain ⟨hnone, _⟩ := ih'.2 hr
        cases hnone
    · have heq : findRouteAux path method (route :: rest) best bestP
          = findRouteAux path method rest best bestP := by
        simp only [findRouteAux, if_neg hc]
      have ih' := ih best bestP hbest
      have hroute : route.Match path method = true → route.priority ≤ bestP := by
        intro hm
        by_contra hlt
        exact hc ⟨hm, by omega⟩
      constructor
      · intro r hr
        rw [heq] at hr
        obtain ⟨hM, hge, hmax, hdisj⟩ := ih'.1 r hr
        refine ⟨hM, hge, ?_, ?_⟩
        · intro r' hr' hm'
          rcases List.mem_cons.mp hr' with rfl | h
          · exact le_trans (hroute hm') hge
          · exact hmax r' h hm'
        · rcases hdisj with hres | ⟨hgt, i, hi, hget, hearlier⟩
          · left; rw [heq]; exact hres
          · right
            refine ⟨hgt, i + 1, by simpa using hi, by simpa using hget, ?_⟩
            intro j hj hjlt hmj
            cases j with
            | zero =>
              have : route.priority ≤ bestP := by
                refine hroute ?_
                simpa using hmj
              simp only [List.get_eq_getElem, List.getElem_cons_zero]
              omega
            | succ j' =>
              have hj' : j' < rest.length := by simpa using hj
              have := hearlier j' hj' (by omega)
              simp only [List.get_cons_succ] at hmj ⊢
              exact this hmj
      · intro hr
        rw [heq] at hr
        obtain ⟨hb, hrest⟩ := ih'.2 hr
        refine ⟨hb, ?_⟩
        intro r' hr' hm'
        rcases List.mem_cons.mp hr' with rfl | h
        · exact hroute hm'
        · exact hrest r' h hm'

/-- **C1.** Every route returned by `FindRoute(path, method)` is enabled, its
method list contains the request method or `"*"`, and its path pattern
matches the path; no other route in the collection that also matches has
strictly greater priority; among matching routes of equal highest priority
the one at the earliest position in the configured list is returned; and if
no route matches, `FindRoute` returns nothing.  (Priorities are assumed
non-negative, the invariant `0 ≤ priority ≤ 1000` enforced by
`RouteConfig.Validate`; `FindRoute` starts its scan at priority `-1`.) -/
theorem FindRoute_correct (rc : RouteCollection) (path method : String)
    (hpri : ∀ r ∈ rc.routes, 0 ≤ r.priority) :
    (∀ r, rc.FindRoute path method = some r →
        r.enabled = true ∧
        (∃ m ∈ r.method, m = method ∨ m = "*") ∧
        matchPath r.path path = true ∧
        (∀ r' ∈ rc.routes, r'.Match path method = true → r'.priority ≤ r.priority) ∧
        (∃ i, ∃ h : i < rc.routes.length, rc.routes.get ⟨i, h⟩ = r ∧
          r.Match path method = true ∧
          ∀ j, ∀ hj : j < rc.routes.length, j < i →
            (rc.routes.get ⟨j, hj⟩).Match path method = true →
            (rc.routes.get ⟨j, hj⟩).priority < r.priority)) ∧
    (rc.FindRoute path method = none →
        ∀ r' ∈ rc.routes, r'.Match path method = false) := by
  have h := findRouteAux_spec path method rc.routes none (-1) (by rintro b ⟨⟩)
  constructor
  · intro r hr
    have hr' : findRouteAux path method rc.routes none (-1) = some r := hr
    obtain ⟨hM, _, hmax, hdisj⟩ := h.1 r hr'
    have hM' := hM
    simp only [RouteConfig.Match, Bool.and_eq_true, List.any_eq_true, Bool.or_eq_true,
      beq_iff_eq] at hM'
    refine ⟨hM'.1.1, hM'.1.2, hM'.2, hmax, ?_⟩
    rcases hdisj with hres | ⟨_, i, hi, hget, hearlier⟩
    · rw [hr'] at hres
      cases hres
    · exact ⟨i, hi, hget, hM, hearlier⟩
  · intro hr r' hr'
    obtain ⟨_, hrest⟩ := h.2 hr
    by_contra hne
    have hm' : r'.Match path method = true := by
      cases hb : r'.Match path method
      · exact absurd hb hne
      · rfl
    have h1 := hrest r' hr' hm'
    have h2 := hpri r' hr'
    omega

/-- Witness for C1: on `GET /a/special` against scenario 5's collection, the
returned route is enabled, path-matched, and of maximal priority. -/
theorem FindRoute_correct_witness :
    rcHi.enabled = true ∧ matchPath rcHi.path "/a/special" = true ∧
    (∀ r' ∈ rcExample.routes, r'.Match "/a/special" "GET" = true →
      r'.priority ≤ rcHi.priority) := by
  have h := FindRoute_correct rcExample "/a/special" "GET" (by decide)
  have h2 := h.1 rcHi (by decide)
  exact ⟨h2.1, h2.2.2.1, h2.2.2.2.1⟩

/-! ## Route validation: timeout bounds and defaulting (claim C10) -/

/-- If a route's validation succeeds with a zero timeout, the returned
(mutated) route carries the 30-second default. -/
theorem Validate_ok_timeout_zero (r r' : RouteConfig) (h0 : r.timeout = 0)
    (h : RouteConfig.Validate r = .ok r') : r'.timeout = 30 * nsPerSec := by
  unfold RouteConfig.Validate at h
  simp only [h0] at h
  norm_num at h
  split_ifs at h
  split at h
  · cases h
  · split at h
    · cases h
    · cases h
      rfl

/-- Validating a route with zero timeout behaves exactly like validating the
same route with the 30-second default already filled in. -/
theorem Validate_timeout_zero_eq (r : RouteConfig) (h : r.timeout = 0) :
    RouteConfig.Validate r = RouteConfig.Validate { r with timeout := 30 * nsPerSec } := by
  unfold RouteConfig.Validate
  simp only [h]
  norm_num [nsPerSec]

/-- **C10.** `Validate` returns an error whenever `Timeout` exceeds 5
minutes, and when `Timeout` is zero it sets the route's timeout to 30
seconds and never fails because of that field (it fails exactly when the
same route with the 30-second timeout fails). -/
theorem Validate_timeout (r : RouteConfig) :
    (5 * 60 * nsPerSec < r.timeout → ∃ e, RouteConfig.Validate r = .error e) ∧
    (r.timeout = 0 →
      (∀ r', RouteConfig.Validate r = .ok r' → r'.timeout = 30 * nsPerSec) ∧
      (∀ e, RouteConfig.Validate r = .error e →
        ∃ e', RouteConfig.Validate { r with timeout := 30 * nsPerSec } = .error e')) := by
  constructor
  · intro hbig
    unfold RouteConfig.Validate
    split_ifs <;> try exact ⟨_, rfl⟩
    all_goals exfalso
    all_goals simp only [nsPerSec] at *
    all_goals omega
  · intro h0
    refine ⟨fun r' h => Validate_ok_timeout_zero r r' h0 h, ?_⟩
    intro e he
    rw [Validate_timeout_zero_eq r h0] at he
    exact ⟨e, he⟩

/-- Witness for C10: the 6-minute-timeout route is rejected; the
zero-timeout route validates to the 30-second default. -/
theorem Validate_timeout_witness :
    (∃ e, RouteConfig.Validate rBig = .error e) ∧
    (∀ r', RouteConfig.Validate rZero = .ok r' → r'.timeout = 30 * nsPerSec) :=
  ⟨(Validate_timeout rBig).1 (by norm_num [rBig, nsPerSec]),
   ((Validate_timeout rZero).2 rfl).1⟩

/-! ## Circuit breaker: Closed-state recording (claim C4) -/

/-- **C4.** In the Closed state, recording an outcome at `now` first resets
both window counters and restarts the window if `now - interval_start >
interval`; then `requests` is incremented and, on failure, `failures` is
incremented; after a failure, if the post-increment counters satisfy
`requests ≥ minimum_requests` and `failures/requests ≥ failure_ratio`, the
breaker opens with `next_attempt = now + timeout`; on outcomes that do not
meet this condition it stays Closed.  (The `uint32` counters are assumed
not to be at their wrap-around point.) -/
theorem RecordResult_closed (cb : CircuitBreaker) (now : ℚ) (success : Bool)
    (hstate : cb.state = .stateClosed)
    (hreq : cb.requests + 1 < U32) (hfail : cb.failures + 1 < U32) :
    (cb.RecordResult now success).requests = windowRequests cb now + 1 ∧
    (cb.RecordResult now success).failures
      = windowFailures cb now + (if success = true then 0 else 1) ∧
    (cb.RecordResult now success).intervalStart
      = (if windowExpired cb now then now else cb.intervalStart) ∧
    (tripCondition cb now success →
      (cb.RecordResult now success).state = .stateOpen ∧
      (cb.RecordResult now success).nextAttemptTime = now + cb.config.timeout) ∧
    (¬ tripCondition cb now success →
      (cb.RecordResult now success).state = .stateClosed) := by
  have h1 : (1 : Nat) % U32 = 1 := by norm_num [U32]
  unfold CircuitBreaker.RecordResult CircuitBreaker.openCircuit
  unfold tripCondition windowRequests windowFailures windowExpired
  by_cases hexp : cb.config.interval < now - cb.intervalStart <;>
    cases success <;>
    simp only [hexp, if_true, if_false, ite_true, ite_false, hstate,
      Nat.mod_eq_of_lt hreq, Nat.mod_eq_of_lt hfail, h1,
      Bool.false_eq_true, Bool.true_eq_false, false_and, not_false_eq_true,
      true_and, and_true, if_neg, if_pos, Nat.zero_add, zero_add] <;>
    ((try split_ifs with htrip) <;> simp_all)

/-- Witness for C4: the example Closed breaker (2 requests, 1 failure,
`minimum_requests = 3`, ratio `0.6`) trips on a failure at `now = 1`:
post-increment counters are 3 requests / 2 failures, `2/3 ≥ 0.6`, so the
breaker opens with `next_attempt = 1 + 30`. -/
theorem RecordResult_closed_witness :
    (cbClosedEx.RecordResult 1 false).state = .stateOpen ∧
    (cbClosedEx.RecordResult 1 false).nextAttemptTime = 1 + cbClosedEx.config.timeout := by
  have h := RecordResult_closed cbClosedEx 1 false rfl
    (by norm_num [cbClosedEx, U32]) (by norm_num [cbClosedEx, U32])
  exact h.2.2.2.1 (by
    refine ⟨rfl, ?_, ?_⟩ <;>
      norm_num [cbClosedEx, cfgEx, windowRequests, windowFailures, windowExpired])

/-! ## Circuit breaker: Open-state admission (claim C5) -/

/-- **C5 counterexample.** The claim admits the first attempt made when
`now ≥ next_attempt_after`, including exactly at that instant.  The code
uses `now.After(nextAttemptTime)`, which is strict: at `now =
next_attempt_after` the example Open breaker rejects the call and stays
Open. -/
theorem CanExecute_boundary_counterexample :
    cbOpenEx.state = .stateOpen ∧
    cbOpenEx.nextAttemptTime ≤ 5 ∧
    (cbOpenEx.CanExecute 5).2 = false ∧
    (cbOpenEx.CanExecute 5).1.state = .stateOpen := by
  refine ⟨rfl, by norm_num [cbOpenEx], ?_, ?_⟩ <;>
    norm_num [CircuitBreaker.CanExecute, cbOpenEx]

/-- **C5 (amended).** A breaker in the Open state rejects every admission
attempt made while `now ≤ next_attempt_after`; the first attempt made
strictly after `next_attempt_after` is admitted and moves the breaker to
Half-Open (clearing the consecutive-success counter); and no attempt is
admitted while the breaker remains Open. -/
theorem CanExecute_open (cb : CircuitBreaker) (now : ℚ) (h : cb.state = .stateOpen) :
    (now ≤ cb.nextAttemptTime → cb.CanExecute now = (cb, false)) ∧
    (cb.nextAttemptTime < now →
      (cb.CanExecute now).2 = true ∧
      (cb.CanExecute now).1.state = .stateHalfOpen ∧
      (cb.CanExecute now).1.consecutiveSuccesses = 0) ∧
    ((cb.CanExecute now).1.state = .stateOpen → (cb.CanExecute now).2 = false) := by
  unfold CircuitBreaker.CanExecute
  simp only [h]
  refine ⟨?_, ?_, ?_⟩
  · intro hle
    rw [if_neg (not_lt.mpr hle)]
  · intro hlt
    rw [if_pos hlt]
    exact ⟨rfl, rfl, rfl⟩
  · intro hst
    by_cases hlt : cb.nextAttemptTime < now
    · rw [if_pos hlt] at hst
      simp at hst
    · rw [if_neg hlt]

/-- Witness for C5 (amended): at `now = 4` the example Open breaker
rejects; at `now = 6` it admits and is Half-Open. -/
theorem CanExecute_open_witness :
    (cbOpenEx.CanExecute 4).2 = false ∧
    (cbOpenEx.CanExecute 6).2 = true ∧
    (cbOpenEx.CanExecute 6).1.state = .stateHalfOpen := by
  have h4 := (CanExecute_open cbOpenEx 4 rfl).1 (by norm_num [cbOpenEx])
  have h6 := (CanExecute_open cbOpenEx 6 rfl).2.1 (by norm_num [cbOpenEx])
  exact ⟨by rw [h4], h6.1, h6.2.1⟩

/-! ## Circuit breaker: Half-Open behaviour (claim C6) -/

/-- **C6 counterexample.** With `max_requests = 1`, a Half-Open breaker
admits a second probe while the first is still unrecorded (`CanExecute`
gates on *recorded* consecutive successes and does not change state in
Half-Open, so concurrent probes are unbounded), and after the required
consecutive successes `closeCircuit` leaves `consecutiveSuccesses = 1 ≠ 0`,
so not all counters are cleared. -/
theorem HalfOpen_counterexample :
    cbHalfEx.config.maxRequests = 1 ∧
    cbHalfEx.state = .stateHalfOpen ∧
    (cbHalfEx.CanExecute 0).2 = true ∧
    (cbHalfEx.CanExecute 0).1 = cbHalfEx ∧
    ((cbHalfEx.CanExecute 0).1.CanExecute 0).2 = true ∧
    (cbHalfEx.RecordResult 0 true).state = .stateClosed ∧
    (cbHalfEx.RecordResult 0 true).consecutiveSuccesses = 1 := by
  refine ⟨rfl, rfl, ?_, ?_, ?_, ?_, ?_⟩ <;>
    norm_num [CircuitBreaker.CanExecute, CircuitBreaker.RecordResult,
      CircuitBreaker.closeCircuit, cbHalfEx, cfgEx, U32]

/-- **C6 (amended).** A Half-Open breaker admits a probe exactly while its
recorded consecutive-success count is below `max_requests` (admission does
not change its state, so the number of concurrently outstanding probes is
not itself bounded); after `max_requests` consecutive recorded successes it
is Closed with the request, failure and consecutive-failure counters
cleared and the window restarted (the consecutive-success counter retains
`max_requests`); and after any recorded failure it is Open with
`next_attempt = now + timeout`. -/
theorem HalfOpen_behavior (cb : CircuitBreaker) (now : ℚ)
    (h : cb.state = .stateHalfOpen)
    (hcs : cb.consecutiveSuccesses + 1 < U32) :
    ((cb.CanExecute now).2 = true ↔ cb.consecutiveSuccesses < cb.config.maxRequests) ∧
    (cb.CanExecute now).1 = cb ∧
    (cb.config.maxRequests ≤ cb.consecutiveSuccesses + 1 →
      (cb.RecordResult now true).state = .stateClosed ∧
      (cb.RecordResult now true).requests = 0 ∧
      (cb.RecordResult now true).failures = 0 ∧
      (cb.RecordResult now true).consecutiveFailures = 0 ∧
      (cb.RecordResult now true).consecutiveSuccesses = cb.consecutiveSuccesses + 1 ∧
      (cb.RecordResult now true).intervalStart = now) ∧
    (cb.consecutiveSuccesses + 1 < cb.config.maxRequests →
      (cb.RecordResult now true).state = .stateHalfOpen ∧
      (cb.RecordResult now true).consecutiveSuccesses = cb.consecutiveSuccesses + 1) ∧
    ((cb.RecordResult now false).state = .stateOpen ∧
      (cb.RecordResult now false).nextAttemptTime = now + cb.config.timeout ∧
      (cb.RecordResult now false).consecutiveSuccesses = 0) := by
  unfold CircuitBreaker.CanExecute CircuitBreaker.RecordResult
  unfold CircuitBreaker.openCircuit CircuitBreaker.closeCircuit
  refine ⟨by simp [h], by simp [h], ?_, ?_, ?_⟩
  · intro hclose
    by_cases hexp : cb.config.interval < now - cb.intervalStart <;>
      simp [h, hexp, Nat.mod_eq_of_lt hcs, hclose]
  · intro hopen
    have hnot : ¬ cb.config.maxRequests ≤ cb.consecutiveSuccesses + 1 := by omega
    by_cases hexp : cb.config.interval < now - cb.intervalStart <;>
      simp [h, hexp, Nat.mod_eq_of_lt hcs, hnot]
  · by_cases hexp : cb.config.interval < now - cb.intervalStart <;>
      simp [h, hexp]

/-- Witness for C6 (amended): the example Half-Open breaker
(`max_requests = 1`) closes after one recorded success, retaining
`consecutiveSuccesses = 1`, and opens again on a recorded failure. -/
theorem HalfOpen_behavior_witness :
    ((cbHalfEx.CanExecute 0).2 = true ↔
      cbHalfEx.consecutiveSuccesses < cbHalfEx.config.maxRequests) ∧
    (cbHalfEx.RecordResult 0 true).state = .stateClosed ∧
    (cbHalfEx.RecordResult 0 true).consecutiveSuccesses = 1 ∧
    (cbHalfEx.RecordResult 0 false).state = .stateOpen := by
  have h := HalfOpen_behavior cbHalfEx 0 rfl (by norm_num [cbHalfEx, U32])
  have hc := h.2.2.1 (by norm_num [cbHalfEx, cfgEx])
  exact ⟨h.1, hc.1, hc.2.2.2.2.1, h.2.2.2.2.1⟩

/-! ## Token bucket admission bound (claim C7) -/

/-- One `Allow` step preserves the configuration fields and stamps
`lastFill`. -/
theorem Allow_fields (tb : TokenBucket) (n now : ℚ) :
    (tb.Allow n now).1.rate = tb.rate ∧ (tb.Allow n now).1.capacity = tb.capacity ∧
    (tb.Allow n now).1.lastFill = now := by
  unfold TokenBucket.Allow TokenBucket.fill
  dsimp only
  split <;> exact ⟨rfl, rfl, rfl⟩

/-- One single-token `Allow` step keeps the token count within
`[0, capacity]`. -/
theorem Allow_tokens_range (tb : TokenBucket) (now : ℚ)
    (hr : 0 ≤ tb.rate) (h0 : 0 ≤ tb.tokens) (hcap : tb.tokens ≤ tb.capacity)
    (hlt : tb.lastFill ≤ now) :
    0 ≤ (tb.Allow 1 now).1.tokens ∧ (tb.Allow 1 now).1.tokens ≤ (tb.Allow 1 now).1.capacity := by
  have hcap0 : 0 ≤ tb.capacity := le_trans h0 hcap
  have he : 0 ≤ (now - tb.lastFill) * tb.rate :=
    mul_nonneg (sub_nonneg.mpr hlt) hr
  unfold TokenBucket.Allow TokenBucket.fill
  dsimp only
  split
  next h =>
    dsimp only at h ⊢
    constructor
    · linarith
    · have := min_le_right (tb.tokens + (now - tb.lastFill) * tb.rate) tb.capacity
      linarith
  next h =>
    dsimp only at h ⊢
    constructor
    · exact le_min (by linarith) hcap0
    · exact min_le_right _ _

/-- The Allow-step potential: the admitted token plus the remaining tokens
are bounded by the pre-call tokens plus the refill. -/
theorem Allow_count_bound (tb : TokenBucket) (now : ℚ) :
    (if (tb.Allow 1 now).2 then (1 : ℚ) else 0) + (tb.Allow 1 now).1.tokens
      ≤ tb.tokens + (now - tb.lastFill) * tb.rate := by
  have hmin := min_le_left (tb.tokens + (now - tb.lastFill) * tb.rate) tb.capacity
  unfold TokenBucket.Allow TokenBucket.fill
  dsimp only
  split
  next h => norm_num
  next h => norm_num

/-- Over any monotone sequence of single-token `Allow` calls bounded by
instant `T`, the admitted count plus the final tokens is bounded by the
initial tokens plus the refill over `[lastFill, T]`, and tokens stay
non-negative. -/
theorem runAllows_bound (ts : List ℚ) :
    ∀ (tb : TokenBucket) (T : ℚ),
      0 ≤ tb.rate → 0 ≤ tb.tokens → tb.tokens ≤ tb.capacity →
      List.Chain (· ≤ ·) tb.lastFill ts → (∀ t ∈ ts, t ≤ T) → tb.lastFill ≤ T →
      0 ≤ (runAllows tb ts).1.tokens ∧
      ((runAllows tb ts).2 : ℚ) + (runAllows tb ts).1.tokens
        ≤ tb.tokens + (T - tb.lastFill) * tb.rate := by
  induction ts with
  | nil =>
    intro tb T hr h0 _ _ _ hT
    have : 0 ≤ (T - tb.lastFill) * tb.rate := mul_nonneg (sub_nonneg.mpr hT) hr
    simp only [runAllows, Nat.cast_zero]
    exact ⟨h0, by linarith⟩
  | cons t ts ih =>
    intro tb T hr h0 hcap hchain hmem hlast
    obtain ⟨hlt, hchain'⟩ := List.chain_cons.mp hchain
    have htT : t ≤ T := hmem t (List.mem_cons_self t ts)
    have hfields := Allow_fields tb 1 t
    have hrange := Allow_tokens_range tb t hr h0 hcap hlt
    have hstep := Allow_count_bound tb t
    have ihres := ih (tb.Allow 1 t).1 T
      (by rw [hfields.1]; exact hr)
      hrange.1
      hrange.2
      (by rw [hfields.2.2]; exact hchain')
      (fun t' ht' => hmem t' (List.mem_cons_of_mem t ht'))
      (by rw [hfields.2.2]; exact htT)
    rw [hfields.2.2, hfields.1] at ihres
    have hring : (t - tb.lastFill) * tb.rate + (T - t) * tb.rate
        = (T - tb.lastFill) * tb.rate := by ring
    simp only [runAllows]
    refine ⟨ihres.1, ?_⟩
    push_cast
    by_cases hadm : (tb.Allow 1 t).2 = true
    · simp only [hadm, ite_true, if_true] at hstep
      simp only [hadm, ite_true, if_true]
      linarith [ihres.2, hstep]
    · simp only [Bool.not_eq_true] at hadm
      simp only [hadm, Bool.false_eq_true, ite_false, if_false] at hstep
      simp only [hadm, Bool.false_eq_true, ite_false, if_false]
      linarith [ihres.2, hstep]

/-- **C7.** Each `Allow` call refills the bucket to
`min(capacity, tokens + elapsed·rate)`, admits iff the refilled token count
is at least the requested amount (subtracting it on admission), denials
leave the token count unchanged, and over any interval of length `dt`
(starting at the bucket's last-fill instant, calls at non-decreasing
times) the number of admitted single-token requests is at most
`capacity + dt·rate`. -/
theorem TokenBucket_spec (tb : TokenBucket) (n now : ℚ) (ts : List ℚ) (dt : ℚ)
    (hr : 0 ≤ tb.rate) (h0 : 0 ≤ tb.tokens) (hcap : tb.tokens ≤ tb.capacity)
    (hdt : 0 ≤ dt)
    (hchain : List.Chain (· ≤ ·) tb.lastFill ts)
    (hwin : ∀ t ∈ ts, t ≤ tb.lastFill + dt) :
    ((tb.fill now).tokens = min (tb.tokens + (now - tb.lastFill) * tb.rate) tb.capacity) ∧
    ((tb.Allow n now).2 = true ↔ n ≤ (tb.fill now).tokens) ∧
    ((tb.Allow n now).2 = true → (tb.Allow n now).1.tokens = (tb.fill now).tokens - n) ∧
    ((tb.Allow n now).2 = false → (tb.Allow n now).1.tokens = (tb.fill now).tokens) ∧
    (((runAllows tb ts).2 : ℚ) ≤ tb.capacity + dt * tb.rate) := by
  refine ⟨rfl, ?_, ?_, ?_, ?_⟩
  · unfold TokenBucket.Allow
    dsimp only
    split
    next h => simpa using h
    next h => simpa using h
  · intro h
    unfold TokenBucket.Allow at h ⊢
    dsimp only at h ⊢
    split at h
    next hc => rw [if_pos hc]
    next hc => cases h
  · intro h
    unfold TokenBucket.Allow at h ⊢
    dsimp only at h ⊢
    split at h
    next hc => cases h
    next hc => rw [if_neg hc]
  · have hb := runAllows_bound ts tb (tb.lastFill + dt) hr h0 hcap hchain hwin
      (by linarith)
    have h1 := hb.1
    have h2 := hb.2
    have : (tb.lastFill + dt - tb.lastFill) * tb.rate = dt * tb.rate := by ring
    rw [this] at h2
    linarith

/-- Witness for C7: the example bucket (capacity 2, rate 1/s) admits 3 of 4
single-token requests at instants 0,0,0,1, within the bound
`capacity + 1·rate = 3`. -/
theorem TokenBucket_spec_witness :
    ((runAllows tbEx [0, 0, 0, 1]).2 : ℚ) ≤ tbEx.capacity + 1 * tbEx.rate :=
  (TokenBucket_spec tbEx 1 0 [0, 0, 0, 1] 1
    (by norm_num [tbEx]) (by norm_num [tbEx]) (by norm_num [tbEx]) (by norm_num)
    (by refine .cons (by norm_num [tbEx]) (.cons (by norm_num) (.cons (by norm_num)
          (.cons (by norm_num) .nil))))
    (by intro t ht; fin_cases ht <;> norm_num [tbEx])).2.2.2.2

/-! ## Load balancers: healthy selection (claim C8) -/

/-- `NewWeighted` establishes the construction invariant. -/
theorem NewWeighted_WF (eps : List EndpointConfig) : (NewWeighted eps).WF := rfl

/-- `MarkHealthy` preserves the construction invariant. -/
theorem Weighted.markHealthy_WF (w : Weighted) (url : String) (h : w.WF) :
    (w.MarkHealthy url).WF := by
  unfold Weighted.WF Weighted.MarkHealthy Weighted.buildWeightedList at *
  split <;> simp_all

/-- `MarkUnhealthy` preserves the construction invariant. -/
theorem Weighted.markUnhealthy_WF (w : Weighted) (url : String) (h : w.WF) :
    (w.MarkUnhealthy url).WF := by
  unfold Weighted.WF Weighted.MarkUnhealthy Weighted.buildWeightedList at *
  split <;> simp_all

/-- Every index in the weighted list points to a healthy endpoint. -/
theorem mem_buildWeightedListFrom :
    ∀ (eps : List EndpointConfig) (i j : Nat), j ∈ buildWeightedListFrom i eps →
      ∃ k, ∃ hk : k < eps.length, i + k = j ∧ (eps.get ⟨k, hk⟩).healthy = true := by
  intro eps
  induction eps with
  | nil => intro i j h; simp [buildWeightedListFrom] at h
  | cons ep rest ih =>
    intro i j h
    simp only [buildWeightedListFrom, List.mem_append] at h
    rcases h with h | h
    · by_cases hb : ep.healthy = true
      · rw [if_pos hb] at h
        have hj : j = i := List.eq_of_mem_replicate h
        exact ⟨0, Nat.succ_pos _, by omega, hb⟩
      · rw [if_neg hb] at h
        simp at h
    · obtain ⟨k, hk, hik, hh⟩ := ih (i + 1) j h
      exact ⟨k + 1, Nat.succ_lt_succ hk, by omega, hh⟩

/-- The weighted list is empty exactly when every healthy endpoint has
weight zero. -/
theorem buildWeightedListFrom_eq_nil :
    ∀ (eps : List EndpointConfig) (i : Nat),
      buildWeightedListFrom i eps = [] ↔
        ∀ ep ∈ eps, ep.healthy = true → ep.weight = 0 := by
  intro eps
  induction eps with
  | nil => intro i; simp [buildWeightedListFrom]
  | cons ep rest ih =>
    intro i
    simp only [buildWeightedListFrom, List.append_eq_nil, List.mem_cons]
    constructor
    · rintro ⟨h1, h2⟩ ep' hm hh
      rcases hm with rfl | hm
      · by_cases hb : ep'.healthy = true
        · rw [if_pos hb] at h1
          simpa using h1
        · exact absurd hh hb
      · exact (ih (i + 1)).mp h2 ep' hm hh
    · intro h
      refine ⟨?_, (ih (i + 1)).mpr fun ep' hm hh => h ep' (Or.inr hm) hh⟩
      by_cases hb : ep.healthy = true
      · rw [if_pos hb]
        simp [h ep (Or.inl rfl) hb]
      · rw [if_neg hb]

/-- `RoundRobin.Next` returns `none` iff no endpoint is healthy, and any
returned endpoint is healthy. -/
theorem RoundRobin_Next_spec (rr : RoundRobin) :
    ((rr.Next).2 = none ↔ ∀ ep ∈ rr.endpoints, ep.healthy = false) ∧
    (∀ ep, (rr.Next).2 = some ep → ep.healthy = true) := by
  unfold RoundRobin.Next
  by_cases hemp : rr.endpoints.isEmpty = true
  · rw [if_pos hemp]
    have hnil : rr.endpoints = [] := by simpa using hemp
    constructor
    · simp [hnil]
    · intro ep h
      simp at h
  · rw [if_neg hemp]
    dsimp only
    by_cases hfil : (rr.endpoints.filter fun ep => ep.healthy).isEmpty = true
    · rw [if_pos hfil]
      have hnil : rr.endpoints.filter (fun ep => ep.healthy) = [] := by simpa using hfil
      constructor
      · constructor
        · intro _ ep hm
          have := List.filter_eq_nil_iff.mp hnil ep hm
          simpa using this
        · intro _
          rfl
      · intro ep h
        simp at h
    · rw [if_neg hfil]
      dsimp only
      have hnil : rr.endpoints.filter (fun ep => ep.healthy) ≠ [] := by
        simpa using hfil
      have hlen : 0 < (rr.endpoints.filter fun ep => ep.healthy).length :=
        List.length_pos.mpr hnil
      have hidx : ((rr.current + 1) % U32) % (rr.endpoints.filter fun ep => ep.healthy).length
          < (rr.endpoints.filter fun ep => ep.healthy).length := Nat.mod_lt _ hlen
      rw [List.get?_eq_get hidx]
      have hmem := List.get_mem (rr.endpoints.filter fun ep => ep.healthy) _ hidx
      have hhealthy := (List.mem_filter.mp hmem).2
      constructor
      · constructor
        · intro h
          simp at h
        · intro hall
          exfalso
          have hfalse := hall _ (List.mem_filter.mp hmem).1
          have htrue := (List.mem_filter.mp hmem).2
          simp only [List.get_eq_getElem] at hfalse
          simp [hfalse] at htrue
      · intro ep h
        have := Option.some.inj h
        subst this
        simpa using hhealthy

/-- `Random.Next` returns `none` iff no endpoint is healthy, and any
returned endpoint is healthy. -/
theorem Random_Next_spec (rd : Random) (seed : Nat) :
    ((rd.Next seed).2 = none ↔ ∀ ep ∈ rd.endpoints, ep.healthy = false) ∧
    (∀ ep, (rd.Next seed).2 = some ep → ep.healthy = true) := by
  unfold Random.Next
  by_cases hfil : (rd.endpoints.filter fun ep => ep.healthy).isEmpty = true
  · rw [if_pos hfil]
    have hnil : rd.endpoints.filter (fun ep => ep.healthy) = [] := by simpa using hfil
    constructor
    · constructor
      · intro _ ep hm
        have := List.filter_eq_nil_iff.mp hnil ep hm
        simpa using this
      · intro _
        rfl
    · intro ep h
      simp at h
  · rw [if_neg hfil]
    dsimp only
    have hnil : rd.endpoints.filter (fun ep => ep.healthy) ≠ [] := by simpa using hfil
    have hlen : 0 < (rd.endpoints.filter fun ep => ep.healthy).length :=
      List.length_pos.mpr hnil
    have hidx : ((seed + 1) % U32) % (rd.endpoints.filter fun ep => ep.healthy).length
        < (rd.endpoints.filter fun ep => ep.healthy).length := Nat.mod_lt _ hlen
    rw [List.get?_eq_get hidx]
    have hmem := List.get_mem (rd.endpoints.filter fun ep => ep.healthy) _ hidx
    have hhealthy := (List.mem_filter.mp hmem).2
    constructor
    · constructor
      · intro h
        simp at h
      · intro hall
        exfalso
        have hfalse := hall _ (List.mem_filter.mp hmem).1
        have htrue := (List.mem_filter.mp hmem).2
        simp only [List.get_eq_getElem] at hfalse
        simp [hfalse] at htrue
    · intro ep h
      have := Option.some.inj h
      subst this
      simpa using hhealthy

/-- `Weighted.Next` under the construction invariant and validated weights:
`none` iff no endpoint is healthy, and any returned endpoint is healthy. -/
theorem Weighted_Next_spec (w : Weighted) (hwf : w.WF)
    (hw : ∀ ep ∈ w.endpoints, 1 ≤ ep.weight) :
    ((w.Next).2 = none ↔ ∀ ep ∈ w.endpoints, ep.healthy = false) ∧
    (∀ ep, (w.Next).2 = some ep → ep.healthy = true) := by
  by_cases hemp : w.weightedList.isEmpty = true
  · have hnext : w.Next = (w, none) := by
      unfold Weighted.Next
      rw [if_pos hemp]
    have hnil : w.weightedList = [] := by simpa using hemp
    rw [hwf] at hnil
    have hall := (buildWeightedListFrom_eq_nil w.endpoints 0).mp hnil
    rw [hnext]
    constructor
    · constructor
      · intro _ ep hm
        by_cases hb : ep.healthy = true
        · have := hall ep hm hb
          have hw1 := hw ep hm
          omega
        · simpa using hb
      · intro _
        rfl
    · intro ep h
      simp at h
  · have hnil : w.weightedList ≠ [] := by simpa using hemp
    have hlen : 0 < w.weightedList.length := List.length_pos.mpr hnil
    have hidx : ((w.current + 1) % U32) % w.weightedList.length < w.weightedList.length :=
      Nat.mod_lt _ hlen
    cases hjk : w.weightedList.get? (((w.current + 1) % U32) % w.weightedList.length) with
    | none =>
      exfalso
      rw [List.get?_eq_get hidx] at hjk
      cases hjk
    | some j =>
      have hmem : j ∈ w.weightedList := List.get?_mem hjk
      rw [hwf] at hmem
      obtain ⟨k, hk, hik, hh⟩ := mem_buildWeightedListFrom w.endpoints 0 j hmem
      have hjk' : j = k := by omega
      subst hjk'
      have hemp' : w.weightedList.isEmpty = false := by
        cases hb : w.weightedList.isEmpty
        · rfl
        · exact absurd hb hemp
      have hnext : (w.Next).2 = w.endpoints.get? j := by
        unfold Weighted.Next
        rw [hemp']
        dsimp only [Bool.false_eq_true, if_false]
        rw [hjk]
        rfl
      rw [hnext, List.get?_eq_get hk]
      constructor
      · constructor
        · intro h
          simp at h
        · intro hall
          exfalso
          have hfalse := hall _ (List.get_mem w.endpoints j hk)
          rw [hfalse] at hh
          cases hh
      · intro ep h
        have := Option.some.inj h
        subst this
        exact hh

/-- The least-connections scan skips unhealthy endpoints, so on an
all-unhealthy list it returns the carried selection. -/
theorem lcScan_all_unhealthy :
    ∀ (eps : List EndpointConfig) (conns : String → Int) (sel : Option EndpointConfig)
      (minC : Int), (∀ ep ∈ eps, ep.healthy = false) →
      lcScan eps conns sel minC = sel := by
  intro eps
  induction eps with
  | nil => intro conns sel minC _; rfl
  | cons ep rest ih =>
    intro conns sel minC hall
    have hh : ep.healthy = false := hall ep (List.mem_cons_self ep rest)
    unfold lcScan
    rw [if_pos hh]
    exact ih conns sel minC fun ep' hm => hall ep' (List.mem_cons_of_mem ep hm)

/-- Soundness of the least-connections scan: a returned endpoint is healthy
(or was the carried selection), and a `none` result means nothing healthy
beat the carried minimum. -/
theorem lcScan_spec :
    ∀ (eps : List EndpointConfig) (conns : String → Int) (sel : Option EndpointConfig)
      (minC : Int),
      (∀ b, sel = some b → b.healthy = true) →
      (∀ b, lcScan eps conns sel minC = some b → b.healthy = true) ∧
      (lcScan eps conns sel minC = none →
        sel = none ∧ ∀ ep ∈ eps, ep.healthy = true → minC ≤ conns ep.url) := by
  intro eps
  induction eps with
  | nil =>
    intro conns sel minC hsel
    exact ⟨fun b h => hsel b h, fun h => ⟨h, by simp⟩⟩
  | cons ep rest ih =>
    intro conns sel minC hsel
    unfold lcScan
    by_cases hh : ep.healthy = false
    · rw [if_pos hh]
      obtain ⟨h1, h2⟩ := ih conns sel minC hsel
      refine ⟨h1, fun h => ?_⟩
      obtain ⟨hs, hmin⟩ := h2 h
      refine ⟨hs, fun ep' hm hhe => ?_⟩
      rcases List.mem_cons.mp hm with rfl | hm'
      · rw [hhe] at hh
        cases hh
      · exact hmin ep' hm' hhe
    · rw [if_neg hh]
      have hht : ep.healthy = true := by
        cases hb : ep.healthy
        · exact absurd hb hh
        · rfl
      by_cases hlt : conns ep.url < minC
      · rw [if_pos hlt]
        obtain ⟨h1, h2⟩ := ih conns (some ep) (conns ep.url)
          (fun b hb => by cases Option.some.inj hb; exact hht)
        refine ⟨h1, fun h => ?_⟩
        obtain ⟨hs, _⟩ := h2 h
        cases hs
      · rw [if_neg hlt]
        obtain ⟨h1, h2⟩ := ih conns sel minC hsel
        refine ⟨h1, fun h => ?_⟩
        obtain ⟨hs, hmin⟩ := h2 h
        refine ⟨hs, fun ep' hm hhe => ?_⟩
        rcases List.mem_cons.mp hm with rfl | hm'
        · omega
        · exact hmin ep' hm' hhe

/-- `LeastConnections.Next` under realistic counts: `none` iff no endpoint
is healthy, and any returned endpoint is healthy. -/
theorem LeastConnections_Next_spec (lc : LeastConnections)
    (hconn : ∀ ep ∈ lc.endpoints, ep.healthy = true → lc.connections ep.url < maxInt32) :
    ((lc.Next).2 = none ↔ ∀ ep ∈ lc.endpoints, ep.healthy = false) ∧
    (∀ ep, (lc.Next).2 = some ep → ep.healthy = true) := by
  unfold LeastConnections.Next
  obtain ⟨h1, h2⟩ := lcScan_spec lc.endpoints lc.connections none maxInt32 (by rintro b ⟨⟩)
  constructor
  · constructor
    · intro h
      cases hscan : lcScan lc.endpoints lc.connections none maxInt32 with
      | none =>
        intro ep hm
        obtain ⟨_, hmin⟩ := h2 hscan
        cases hb : ep.healthy
        · rfl
        · exact absurd (hconn ep hm hb) (not_lt.mpr (hmin ep hm hb))
      | some b =>
        rw [hscan] at h
        simp at h
    · intro hall
      rw [lcScan_all_unhealthy lc.endpoints lc.connections none maxInt32 hall]
  · intro ep h
    cases hscan : lcScan lc.endpoints lc.connections none maxInt32 with
    | none =>
      rw [hscan] at h
      simp at h
    | some b =>
      rw [hscan] at h
      simp only [Option.some.injEq] at h
      subst h
      exact h1 b hscan

/-- **C8.** For every pool of each of the four algorithms (weighted under
its construction invariant and validated weights `≥ 1`, least-connections
with counts below `MaxInt32`), `Next()` returns `none` exactly when no
endpoint in the pool is healthy, and any endpoint it returns has its
healthy flag set at the moment of selection. -/
theorem Next_healthy (rr : RoundRobin) (w : Weighted) (lc : LeastConnections)
    (rd : Random) (seed : Nat) (hwf : w.WF)
    (hw : ∀ ep ∈ w.endpoints, 1 ≤ ep.weight)
    (hconn : ∀ ep ∈ lc.endpoints, ep.healthy = true → lc.connections ep.url < maxInt32) :
    (((rr.Next).2 = none ↔ ∀ ep ∈ rr.endpoints, ep.healthy = false) ∧
      (∀ ep, (rr.Next).2 = some ep → ep.healthy = true)) ∧
    (((w.Next).2 = none ↔ ∀ ep ∈ w.endpoints, ep.healthy = false) ∧
      (∀ ep, (w.Next).2 = some ep → ep.healthy = true)) ∧
    (((lc.Next).2 = none ↔ ∀ ep ∈ lc.endpoints, ep.healthy = false) ∧
      (∀ ep, (lc.Next).2 = some ep → ep.healthy = true)) ∧
    (((rd.Next seed).2 = none ↔ ∀ ep ∈ rd.endpoints, ep.healthy = false) ∧
      (∀ ep, (rd.Next seed).2 = some ep → ep.healthy = true)) :=
  ⟨RoundRobin_Next_spec rr, Weighted_Next_spec w hwf hw,
    LeastConnections_Next_spec lc hconn, Random_Next_spec rd seed⟩

/-- Witness for C8: the concrete pools (one healthy, one unhealthy
endpoint; least-connections over a healthy endpoint) select healthy
endpoints and are not empty-handed. -/
theorem Next_healthy_witness :
    ((∀ ep, (rrEx.Next).2 = some ep → ep.healthy = true) ∧
      ((wEx.Next).2 = none ↔ ∀ ep ∈ wEx.endpoints, ep.healthy = false) ∧
      (∀ ep, (lcEx.Next).2 = some ep → ep.healthy = true)) := by
  have h := Next_healthy rrEx wEx lcEx rdEx 0 rfl (by decide)
    (by intro ep _ _; norm_num [lcEx, NewLeastConnections, maxInt32])
  exact ⟨h.1.2, h.2.1.1, h.2.2.1.2⟩

/-! ## Least-connections counts never decrease (claim C9) -/

/-- One interface operation never decreases a connection count. -/
theorem LeastConnections.applyOp_mono (lc : LeastConnections) (op : LCOp) (url : String) :
    lc.connections url ≤ (lc.applyOp op).connections url := by
  cases op with
  | next =>
    unfold LeastConnections.applyOp LeastConnections.Next
    cases hscan : lcScan lc.endpoints lc.connections none maxInt32 with
    | none => simp
    | some sel =>
      dsimp only
      by_cases h : url = sel.url <;> simp [h]
  | markHealthy u => exact le_refl _
  | markUnhealthy u => exact le_refl _

/-- **C9 (code bug).** The pool interface offers no decrement: counts never
decrease under any sequence of `Next`/`MarkHealthy`/`MarkUnhealthy`; counts
start at zero and stay non-negative; and once the example pool has routed
one request, its endpoint's count is 1 and remains at least 1 forever —
after the request completes (system quiesced) it cannot return to 0,
contradicting the claim. -/
theorem LeastConnections_no_release :
    (∀ (lc : LeastConnections) (ops : List LCOp) (url : String),
      lc.connections url ≤ (lc.runOps ops).connections url) ∧
    (∀ (eps : List EndpointConfig) (ops : List LCOp) (url : String),
      0 ≤ ((NewLeastConnections eps).runOps ops).connections url) ∧
    ((lcEx.Next).2 = some epA ∧
      (lcEx.Next).1.connections "http://a:9000" = 1 ∧
      ∀ ops : List LCOp, 1 ≤ ((lcEx.Next).1.runOps ops).connections "http://a:9000") := by
  have hmono : ∀ (ops : List LCOp) (lc : LeastConnections) (url : String),
      lc.connections url ≤ (lc.runOps ops).connections url := by
    intro ops
    induction ops with
    | nil => intro lc url; exact le_refl _
    | cons op rest ih =>
      intro lc url
      exact le_trans (LeastConnections.applyOp_mono lc op url) (ih (lc.applyOp op) url)
  refine ⟨fun lc ops url => hmono ops lc url, ?_, ?_, ?_, ?_⟩
  · intro eps ops url
    exact le_trans (le_refl 0) (hmono ops (NewLeastConnections eps) url)
  · rfl
  · rfl
  · intro ops
    have h1 : (lcEx.Next).1.connections "http://a:9000" = 1 := rfl
    have := hmono ops (lcEx.Next).1 "http://a:9000"
    omega

/-! ## Reload is not atomic on error (claim C2) -/

/-- The initialization loop only appends to the backends map — it never
reads the previous entries, routes or config. -/
theorem initBackends_fields :
    ∀ (l : List BackendService) (r : Router),
      (r.initBackends l).1.routes = r.routes ∧
      (r.initBackends l).1.config = r.config ∧
      (r.initBackends l).1.backends = r.backends ++ initializedBackends l := by
  intro l
  induction l with
  | nil =>
    intro r
    exact ⟨rfl, rfl, by simp [Router.initBackends, initializedBackends]⟩
  | cons svc rest ih =>
    intro r
    unfold Router.initBackends Router.initializeBackend initializedBackends
    cases hnew : LoadBalancer.New svc.loadBalancer svc.endpoints with
    | error e => exact ⟨rfl, rfl, by simp⟩
    | ok lb =>
      dsimp only
      obtain ⟨h1, h2, h3⟩ := ih { r with backends := r.backends ++
        [(svc.id, { service := svc, lb := lb, proxies := svc.endpoints.map (·.url) })] }
      exact ⟨h1, h2, by rw [h3]; simp⟩

/-- **C2 counterexample.** Reloading the installed router with a
configuration whose backend uses algorithm `ip-hash` (accepted by
`LoadBalancerConfig.Validate`, rejected by `loadbalancer.New`) returns an
error — yet the previously installed backends map and route table are
gone, not retained. -/
theorem Reload_not_atomic_counterexample :
    (routerEx.Reload cfgBad).2.isSome = true ∧
    (routerEx.Reload cfgBad).1.backends = [] ∧
    (routerEx.Reload cfgBad).1.routes = [] ∧
    routerEx.backends ≠ [] ∧ routerEx.routes ≠ [] := by
  refine ⟨rfl, rfl, rfl, ?_, ?_⟩ <;> simp [routerEx]

/-- **C2 (amended).** If `Reload(newConfig)` returns an error, the router's
previously installed state has been discarded, not retained: the route
table is empty and the backends map holds exactly the prefix of
`newConfig`'s backends that initialized before the failure (a function of
the new configuration only); only the `config` field still points at the
old configuration record. -/
theorem Reload_error_state (r : Router) (cfg : Config) (e : String)
    (h : (r.Reload cfg).2 = some e) :
    (r.Reload cfg).1.routes = [] ∧
    (r.Reload cfg).1.config = r.config ∧
    (r.Reload cfg).1.backends = initializedBackends cfg.backends := by
  unfold Router.Reload at h ⊢
  dsimp only at h ⊢
  obtain ⟨h1, h2, h3⟩ :=
    initBackends_fields cfg.backends { r with backends := [], routes := [] }
  cases hinit : Router.initBackends { r with backends := [], routes := [] } cfg.backends with
  | mk r1 err =>
    rw [hinit] at h h1 h2 h3
    cases err with
    | none =>
      dsimp only at h
      cases h
    | some e' =>
      dsimp only at h h1 h2 h3 ⊢
      exact ⟨h1, h2, by simpa using h3⟩

/-- Witness for C2 (amended): the concrete failed reload leaves empty
routes, the old config pointer, and no backends (the bad backend was the
first to initialize). -/
theorem Reload_error_state_witness :
    (routerEx.Reload cfgBad).1.routes = [] ∧
    (routerEx.Reload cfgBad).1.config = routerEx.config ∧
    (routerEx.Reload cfgBad).1.backends = initializedBackends cfgBad.backends :=
  Reload_error_state routerEx cfgBad
    "failed to initialize backend api2: failed to create load balancer: unsupported algorithm: ip-hash"
    rfl

/-! ## The health checker never drives the pools (claim C3) -/

/-- **C3 (code bug).** A health-check pass updates only the checker's
status map; no pool's `MarkHealthy`/`MarkUnhealthy` is invoked (these have
no caller anywhere in the repository), so the load balancers' healthy
flags do not reflect probe outcomes.  Concretely: with backend `api` over
endpoint `http://a:9000` whose pool flag is false, a successful probe
records `healthy` in the checker's map, yet the router's backends are
unchanged and the pool still returns no endpoint. -/
theorem performHealthCheck_no_pool_update :
    (∀ (s : GatewayState) (backend : BackendService)
        (probe : String → Bool × ℚ × Option String) (now : ℚ),
      (healthCheckStep s backend probe now).backends = s.backends) ∧
    ((lookupStatus (healthCheckStep gwEx svcSick probeOK 0).statuses "api").map
        (fun st => st.status) = some "healthy") ∧
    ((lookupStatus (healthCheckStep gwEx svcSick probeOK 0).statuses "api").map
        (fun st => (st.endpointStatuses.filter fun kv => kv.2.healthy).length)
      = some 1) ∧
    (healthCheckStep gwEx svcSick probeOK 0).backends = gwEx.backends ∧
    ((NewRoundRobin [epSick]).Next).2 = none :=
  ⟨fun _ _ _ _ => rfl, rfl, rfl, rfl, rfl⟩

end RyohiRouter
